import Mathlib

/-!
Verification development for a tree-walking Lox interpreter
(`src/interpret/*`, `src/parse/*`, `src/scan/*`).

The Rust sources are shallowly embedded:
* `f64` is modelled by `Float64`: an exact-rational carrier plus explicit
  `nan` and `inf` points.  IEEE-754 comparison semantics (NaN compares
  unequal to everything, `-0.0 == 0.0`) are preserved; rounding and
  overflow of finite arithmetic are not modelled (finite operations are
  exact on ℚ).
* Rust `HashMap`s become association lists whose insert overwrites.
* The evaluator is a fuel-indexed structural recursion; `none` means the
  fuel ran out (models only non-termination, never a program outcome).
* Rust panics (`unwrap` on a missing arena id, `unreachable!`) are
  modelled as no-ops returning the input state; the interpreter never
  reaches them on ids it allocated.
-/

/-- Model of Rust `f64`: exact rationals plus `inf`/`nan`.  `finite q`
collapses `-0.0` and `0.0` (they are IEEE-equal, which is the only
observation the interpreter makes).  Finite arithmetic is exact; rounding
and overflow are outside the model. -/
inductive Float64 where
  | finite (q : ℚ)
  | inf (negative : Bool)
  | nan
deriving DecidableEq, Repr

namespace Float64

def zero : Float64 := .finite 0

/-- IEEE-754 `==` on `f64` (Rust `PartialEq for f64`): NaN is unequal to
everything, including itself. -/
def feq : Float64 → Float64 → Bool
  | .nan, _ => false
  | _, .nan => false
  | .finite q1, .finite q2 => decide (q1 = q2)
  | .inf b1, .inf b2 => decide (b1 = b2)
  | _, _ => false

def isNaNB : Float64 → Bool
  | .nan => true
  | _ => false

def isFinite : Float64 → Bool
  | .finite _ => true
  | _ => false

def isNeg : Float64 → Bool
  | .finite q => decide (q < 0)
  | .inf b => b
  | .nan => false

/-- Rust unary `-` on `f64`. -/
def fneg : Float64 → Float64
  | .finite q => .finite (-q)
  | .inf b => .inf (!b)
  | .nan => .nan

/-- Rust `+` on `f64` (exact on finite values). -/
def fadd : Float64 → Float64 → Float64
  | .nan, _ => .nan
  | _, .nan => .nan
  | .inf b1, .inf b2 => if b1 = b2 then .inf b1 else .nan
  | .inf b, .finite _ => .inf b
  | .finite _, .inf b => .inf b
  | .finite q1, .finite q2 => .finite (q1 + q2)

/-- Rust `-` on `f64`. -/
def fsub (a b : Float64) : Float64 := fadd a (fneg b)

/-- Rust `*` on `f64` (exact on finite values). -/
def fmul : Float64 → Float64 → Float64
  | .nan, _ => .nan
  | _, .nan => .nan
  | .inf b1, .inf b2 => .inf (b1 != b2)
  | .inf b, .finite q => if q = 0 then .nan else .inf (b != decide (q < 0))
  | .finite q, .inf b => if q = 0 then .nan else .inf (b != decide (q < 0))
  | .finite q1, .finite q2 => .finite (q1 * q2)

/-- Rust `/` on `f64`, exact on finite values (a zero divisor gives
`nan` or `inf` as IEEE prescribes, though the interpreter guards it).
CAUTION: because rounding and overflow are not modelled, finite/finite
division with a nonzero divisor is always finite here, whereas real
`f64` division of finite operands can overflow to an infinity; no
theorem may therefore claim finiteness of the program's quotients. -/
def fdiv : Float64 → Float64 → Float64
  | .nan, _ => .nan
  | _, .nan => .nan
  | .inf b1, .inf _ => if b1 then .nan else .nan
  | .inf b, .finite q => .inf (b != decide (q < 0))
  | .finite _, .inf _ => .finite 0
  | .finite q1, .finite q2 =>
    if q2 = 0 then (if q1 = 0 then .nan else .inf (decide (q1 < 0)))
    else .finite (q1 / q2)

/-- Rust `<` on `f64`: false whenever an operand is NaN. -/
def flt : Float64 → Float64 → Bool
  | .nan, _ => false
  | _, .nan => false
  | .finite q1, .finite q2 => decide (q1 < q2)
  | .inf b1, .inf b2 => b1 && !b2
  | .inf b, .finite _ => b
  | .finite _, .inf b => !b

/-- Rust `<=` on `f64`: false whenever an operand is NaN. -/
def fle : Float64 → Float64 → Bool
  | .nan, _ => false
  | _, .nan => false
  | .finite q1, .finite q2 => decide (q1 ≤ q2)
  | .inf b1, .inf b2 => b1 || !b2
  | .inf b, .finite _ => b
  | .finite _, .inf b => !b

/-- Rust `>` on `f64`. -/
def fgt (a b : Float64) : Bool := flt b a

/-- Rust `>=` on `f64`. -/
def fge (a b : Float64) : Bool := fle b a

end Float64

/-- Rust `scan/token_kind.rs::TokenKind`. -/
inductive TokenKind where
  | leftParen | rightParen | leftBrace | rightBrace
  | comma | dot | minus | plus | semicolon | slash | star
  | bang | bangEqual | equal | equalEqual
  | greater | greaterEqual | less | lessEqual
  | numberTk (lexeme : String)
  | stringTk (content : String)
  | identifier (name : String)
  | and | class_ | eof | else_ | false_ | fun_ | for_ | if_
  | nil | or | print | returnTk | superTk | this | true_ | var | while_
deriving DecidableEq, Repr

namespace TokenKind

/-- Rust `TokenKind::symbol`. -/
def symbol : TokenKind → String
  | .leftParen => "("
  | .rightParen => ")"
  | .leftBrace => "\x7b"
  | .rightBrace => "\x7d"
  | .comma => ","
  | .dot => "."
  | .minus => "-"
  | .plus => "+"
  | .semicolon => ";"
  | .slash => "/"
  | .star => "*"
  | .bang => "!"
  | .bangEqual => "!="
  | .equal => "="
  | .equalEqual => "=="
  | .greater => ">"
  | .greaterEqual => ">="
  | .less => "<"
  | .lessEqual => "<="
  | .numberTk value => value
  | .stringTk value => value
  | .identifier value => value
  | .and => "and"
  | .class_ => "class"
  | .else_ => "else"
  | .false_ => "false"
  | .fun_ => "fun"
  | .for_ => "for"
  | .if_ => "if"
  | .nil => "nil"
  | .or => "or"
  | .print => "print"
  | .returnTk => "return"
  | .superTk => "super"
  | .this => "this"
  | .true_ => "true"
  | .var => "var"
  | .while_ => "while"
  | .eof => ""

end TokenKind

/-- Rust `scan/token.rs::Token`: a kind paired with a source line. -/
structure Token where
  kind : TokenKind
  line : Nat
deriving DecidableEq, Repr

/-- Rust `parse/expr.rs::Expr`.  Literal numbers carry the `f64` model. -/
inductive Expr where
  | literalNumber (value : Float64)
  | literalBool (value : Bool)
  | literalString (value : String)
  | binary (left : Expr) (operator : Token) (right : Expr)
  | logical (left : Expr) (operator : Token) (right : Expr)
  | unary (operator : Token) (right : Expr)
  | call (line : Nat) (callee : Expr) (args : List Expr)
  | group (expression : Expr)
  | literalNil
  | variable (name : String) (line : Nat)
  | assign (name : String) (value : Expr) (line : Nat)
deriving Repr

/-- Rust `parse/stmt.rs::Stmt`.  The snapshot of `stmt.rs` predates the
`Return` variant; `Return` is modelled from the spec ("return (value
expression...)") and from its uses in `interpreter.rs`
(`Stmt::Return(expr)`). -/
inductive Stmt where
  | expr (e : Expr)
  | print (e : Expr)
  | var (name : String) (init : Expr) (line : Nat)
  | scopeBlock (stmts : List Stmt)
  | ifStmt (condition : Expr) (then_ : Stmt) (els : Option Stmt)
  | whileStmt (condition : Expr) (body : Stmt)
  | function (name : String) (params : List String) (body : List Stmt)
  | Return (e : Expr)
deriving Repr

/-- The native implementations available in the program: only `clock`
(installed by `Interpreter::new`).  Represented as a closed enumeration
so that `Value` stays strictly positive. -/
inductive NativeImpl where
  | clock
deriving DecidableEq, Repr

/-- Rust `interpret/lox_fn.rs::NativeFn` (name plus host implementation). -/
structure NativeFn where
  name : String
  implementation : NativeImpl
deriving DecidableEq, Repr

/-- Rust `interpret/lox_fn.rs::LoxFn`. -/
structure LoxFn where
  name : String
  params : List String
  body : List Stmt
  contextId : Nat
deriving Repr

/-- Rust `interpret/lox_fn.rs::Callable`. -/
inductive Callable where
  | lox (fun_ : LoxFn)
  | native (fun_ : NativeFn)
deriving Repr

/-- Rust `interpret/value.rs::Value` in the shape used by `interpreter.rs`
(the `Callable` variant; the snapshot of `value.rs` shows an older
`Fn` variant with identical payload). -/
inductive Value where
  | number (value : Float64)
  | nil
  | boolean (value : Bool)
  | string (value : String)
  | callable (c : Callable)
deriving Repr

namespace Value

/-- Rust `Value::type_name`. -/
def typeName : Value → String
  | .number _ => "Number"
  | .nil => "nil"
  | .boolean _ => "Boolean"
  | .string _ => "String"
  | .callable _ => "function"

/-- Rust `Value::to_string`.  Number rendering approximates the host float
formatting: an integral rational prints without a fractional part; no
claim depends on the exact fractional rendering. -/
def toString : Value → String
  | .number (.finite q) =>
    if q.den = 1 then ToString.toString q.num else ToString.toString q
  | .number (.inf b) => if b then "-inf" else "inf"
  | .number .nan => "NaN"
  | .nil => "nil"
  | .boolean b => if b then "true" else "false"
  | .string s => s
  | .callable (.lox f) => "<fn " ++ f.name ++ ">"
  | .callable (.native f) => "<nativefn " ++ f.name ++ ">"

end Value

/-- Rust `interpret/error.rs::RuntimeError`.  The snapshot of `error.rs`
lists the first eight variants; `Return` is modelled from the spec
("Internal control — Return(value): not user-visible") and from its
uses in `interpreter.rs` and `lox_fn.rs`. -/
inductive RuntimeError where
  | notANumber (line : Nat) (got : String)
  | wrongBinaryOperationType (line : Nat) (op : String) (lt : String) (rt : String)
  | invalidExpression
  | undefinedVariable (line : Nat) (name : String)
  | cannotWriteToStdout
  | zeroDivision (line : Nat)
  | notAFunction (line : Nat) (got : String)
  | wrongNumberOfArguments (line : Nat) (name : String) (expected : Nat) (got : Nat)
  | Return (value : Value)
deriving Repr

namespace RuntimeError

/-- The `thiserror`-generated `Display` of `RuntimeError` (`error.rs`
lines 3-21), one string per variant.  `Return` has no `#[error]`
attribute in the source and is never rendered; it is mapped to the
empty string here. -/
def message : RuntimeError → String
  | .notANumber line got =>
    "[line " ++ ToString.toString line ++ "]: " ++ ("Expected a number, got a " ++ got)
  | .wrongBinaryOperationType line op lt rt =>
    "[line " ++ ToString.toString line ++ "]: " ++
      ("Operation " ++ op ++ " expected 2 numbers. Received " ++ lt ++ " and " ++ rt)
  | .invalidExpression =>
    "Expression cannot be executed. Maybe there is an issue with the parser."
  | .undefinedVariable line name =>
    "[line " ++ ToString.toString line ++ "]: " ++ ("Undefined variable: " ++ name)
  | .cannotWriteToStdout => "Cannot write to stdout"
  | .zeroDivision line =>
    "[line " ++ ToString.toString line ++ "]: " ++ "Tried to divide by zero"
  | .notAFunction line got =>
    "[line " ++ ToString.toString line ++ "]: " ++ ("Expected function, got " ++ got)
  | .wrongNumberOfArguments line name expected got =>
    "[line " ++ ToString.toString line ++ "]: " ++
      (name ++ " expeted " ++ ToString.toString expected ++ " arguments, but " ++
        ToString.toString got ++ " received")
  | .Return _ => ""

end RuntimeError

/-- A lexical scope: `HashMap<String, Value>` as an association list;
`insert` overwrites. -/
abbrev Scope := List (String × Value)

namespace Scope

/-- Rust `HashMap::insert` (overwrite semantics). -/
def insert (key : String) (value : Value) : Scope → Scope
  | [] => [(key, value)]
  | (k, v) :: rest =>
    if k = key then (key, value) :: rest else (k, v) :: insert key value rest

/-- Rust `HashMap::get`. -/
def get (s : Scope) (key : String) : Option Value :=
  match s with
  | [] => none
  | (k, v) :: rest => if k = key then some v else get rest key

/-- Rust `HashMap::contains_key`. -/
def containsKey (s : Scope) (key : String) : Bool :=
  (get s key).isSome

end Scope

/-- Rust `interpret/branching_scope.rs::Node`. -/
inductive Node where
  | base
  | child (data : Scope) (parent : Nat) (refCount : Nat)

/-- The node arena: `HashMap<usize, Node>` as an association list. -/
abbrev Arena := List (Nat × Node)

namespace Arena

def lookup (a : Arena) (id : Nat) : Option Node :=
  match a with
  | [] => none
  | (k, v) :: rest => if k = id then some v else lookup rest id

/-- Rust `HashMap::insert` (overwrite semantics). -/
def set (id : Nat) (n : Node) : Arena → Arena
  | [] => [(id, n)]
  | (k, v) :: rest =>
    if k = id then (id, n) :: rest else (k, v) :: set id n rest

/-- Rust `HashMap::remove`. -/
def remove (id : Nat) : Arena → Arena
  | [] => []
  | (k, v) :: rest =>
    if k = id then remove id rest else (k, v) :: remove id rest

end Arena

/-- Rust `interpret/branching_scope.rs::BranchingScope`: the arena plus the
monotone id allocator (`current`). -/
structure BranchingScope where
  nodes : Arena
  current : Nat

namespace BranchingScope

/-- Rust `BranchingScope::empty`. -/
def empty : BranchingScope := { nodes := [(0, .base)], current := 0 }

/-- Rust `BranchingScope::add_ref_to_node`.  The Rust code `unwrap`s the
lookup (panicking on a missing id); the embedding leaves the state
unchanged in that unreachable case. -/
def addRefToNode (bs : BranchingScope) (id : Nat) : BranchingScope :=
  match bs.nodes.lookup id with
  | some (.child d p r) => { bs with nodes := bs.nodes.set id (.child d p (r + 1)) }
  | _ => bs

/-- Rust `BranchingScope::remove_ref_from_node` (decrement only; the node is
never removed here). -/
def removeRefFromNode (bs : BranchingScope) (id : Nat) : BranchingScope :=
  match bs.nodes.lookup id with
  | some (.child d p r) => { bs with nodes := bs.nodes.set id (.child d p (r - 1)) }
  | _ => bs

/-- Rust `BranchingScope::branch(src, value)`: allocate a fresh id, insert a
child with `ref_count := 0`, bump the source's reference count, return
the new id.  (`interpreter.rs` calls it without the `value` argument;
it always passes the empty scope.) -/
def branch (bs : BranchingScope) (src : Nat) (value : Scope) : Nat × BranchingScope :=
  let newId := bs.current + 1
  let bs1 : BranchingScope :=
    { nodes := bs.nodes.set newId (.child value src 0), current := newId }
  (newId, bs1.addRefToNode src)

/-- Rust `BranchingScope::release`: read the node; if its `ref_count` is zero
remove it and decrement the parent's count, otherwise retain it.  Either
way return the parent id.  The Rust code panics on a missing id and
declares `Node::Base` unreachable; the embedding returns `(0, bs)`
unchanged there. -/
def release (bs : BranchingScope) (id : Nat) : Nat × BranchingScope :=
  match bs.nodes.lookup id with
  | some (.child _ parent rc) =>
    if rc = 0 then
      (parent, ({ bs with nodes := bs.nodes.remove id } : BranchingScope).removeRefFromNode parent)
    else (parent, bs)
  | _ => (0, bs)

/-- Rust `BranchingScope::define` (insert into the scope at `id`; no-op on
`Base` or a missing id, as in the source's `and_then` chain). -/
def define (bs : BranchingScope) (id : Nat) (key : String) (value : Value) : BranchingScope :=
  match bs.nodes.lookup id with
  | some (.child d p r) =>
    { bs with nodes := bs.nodes.set id (.child (Scope.insert key value d) p r) }
  | _ => bs

/-- The parent walk of `find_first_with_key`, made total with fuel
bounded by the arena size (the Rust loop would diverge only on a cyclic
arena, which the interpreter never builds). -/
def findOwner (bs : BranchingScope) : Nat → Nat → String → Option Nat
  | 0, _, _ => none
  | fuel + 1, id, key =>
    match bs.nodes.lookup id with
    | none => none
    | some .base => none
    | some (.child d parent _) =>
      if d.containsKey key then some id else findOwner bs fuel parent key

/-- Rust `BranchingScope::get`: walk the parent chain, return the first
binding. -/
def get (bs : BranchingScope) (id : Nat) (key : String) : Option Value :=
  match bs.findOwner (bs.nodes.length + 1) id key with
  | none => none
  | some owner =>
    match bs.nodes.lookup owner with
    | some (.child d _ _) => d.get key
    | _ => none

/-- Rust `BranchingScope::assign`: overwrite the binding in the nearest
ancestor scope that has it; `none` when no ancestor binds the key. -/
def assign (bs : BranchingScope) (id : Nat) (key : String) (value : Value) :
    Option BranchingScope :=
  match bs.findOwner (bs.nodes.length + 1) id key with
  | none => none
  | some owner => some (bs.define owner key value)

end BranchingScope

/-- Rust `interpret/interpreter.rs::Interpreter` state: arena, current scope
id, and the text sink (`stdout`) as the list of lines written.  `now`
supplies the wall-clock value returned by the native `clock`. -/
structure InterpState where
  env : BranchingScope
  currentId : Nat
  output : List String
  now : Float64

/-- Rust `Interpreter::new`: branch the global scope from the root and
install the native `clock` in it. -/
def Interpreter.new (now : Float64) : InterpState :=
  let env0 := BranchingScope.empty
  let (globalId, env1) := env0.branch 0 []
  let env2 := env1.define globalId "clock"
    (.callable (.native { name := "clock", implementation := .clock }))
  { env := env2, currentId := globalId, output := [], now := now }

/-- Run a native implementation (`NativeFn::call` body).  `clock`
ignores its arguments and returns the host time. -/
def NativeImpl.run : NativeImpl → InterpState → List Value → Except RuntimeError Value
  | .clock, st, _ => .ok (.number st.now)

/-- Rust `Interpreter::is_falsey`. -/
def isFalsey : Value → Bool
  | .nil => true
  | .boolean false => true
  | _ => false

/-- Rust `Interpreter::is_truthy`. -/
def isTruthy (v : Value) : Bool := !isFalsey v

mutual

/-- Rust's derived `PartialEq for Expr`: field-wise equality, with IEEE
`==` at `f64` leaves (so an expression containing a NaN literal is not
equal to itself). -/
def exprEq : Expr → Expr → Bool
  | .literalNumber v1, .literalNumber v2 => Float64.feq v1 v2
  | .literalBool b1, .literalBool b2 => decide (b1 = b2)
  | .literalString s1, .literalString s2 => decide (s1 = s2)
  | .binary l1 o1 r1, .binary l2 o2 r2 => exprEq l1 l2 && decide (o1 = o2) && exprEq r1 r2
  | .logical l1 o1 r1, .logical l2 o2 r2 => exprEq l1 l2 && decide (o1 = o2) && exprEq r1 r2
  | .unary o1 r1, .unary o2 r2 => decide (o1 = o2) && exprEq r1 r2
  | .call l1 c1 a1, .call l2 c2 a2 => decide (l1 = l2) && exprEq c1 c2 && exprsEq a1 a2
  | .group e1, .group e2 => exprEq e1 e2
  | .literalNil, .literalNil => true
  | .variable n1 l1, .variable n2 l2 => decide (n1 = n2) && decide (l1 = l2)
  | .assign n1 v1 l1, .assign n2 v2 l2 => decide (n1 = n2) && exprEq v1 v2 && decide (l1 = l2)
  | _, _ => false

/-- Derived `PartialEq for Vec<Expr>`. -/
def exprsEq : List Expr → List Expr → Bool
  | [], [] => true
  | e1 :: r1, e2 :: r2 => exprEq e1 e2 && exprsEq r1 r2
  | _, _ => false

end

mutual

/-- Rust's derived `PartialEq for Stmt`. -/
def stmtEq : Stmt → Stmt → Bool
  | .expr e1, .expr e2 => exprEq e1 e2
  | .print e1, .print e2 => exprEq e1 e2
  | .var n1 e1 l1, .var n2 e2 l2 => decide (n1 = n2) && exprEq e1 e2 && decide (l1 = l2)
  | .scopeBlock s1, .scopeBlock s2 => stmtsEq s1 s2
  | .ifStmt c1 t1 e1, .ifStmt c2 t2 e2 => exprEq c1 c2 && stmtEq t1 t2 && optStmtEq e1 e2
  | .whileStmt c1 b1, .whileStmt c2 b2 => exprEq c1 c2 && stmtEq b1 b2
  | .function n1 p1 b1, .function n2 p2 b2 =>
    decide (n1 = n2) && decide (p1 = p2) && stmtsEq b1 b2
  | .Return e1, .Return e2 => exprEq e1 e2
  | _, _ => false

/-- Derived `PartialEq for Vec<Stmt>`. -/
def stmtsEq : List Stmt → List Stmt → Bool
  | [], [] => true
  | s1 :: r1, s2 :: r2 => stmtEq s1 s2 && stmtsEq r1 r2
  | _, _ => false

/-- Derived `PartialEq for Option<Box<Stmt>>`. -/
def optStmtEq : Option Stmt → Option Stmt → Bool
  | none, none => true
  | some s1, some s2 => stmtEq s1 s2
  | _, _ => false

end

/-- Rust's derived `PartialEq for LoxFn` (all four fields). -/
def loxFnEq (f1 f2 : LoxFn) : Bool :=
  decide (f1.name = f2.name) && decide (f1.params = f2.params) &&
    stmtsEq f1.body f2.body && decide (f1.contextId = f2.contextId)

/-- The hand-written `PartialEq for NativeFn`: compares names only. -/
def nativeFnEq (f1 f2 : NativeFn) : Bool := decide (f1.name = f2.name)

/-- Derived `PartialEq for Callable`. -/
def callableEq : Callable → Callable → Bool
  | .lox f1, .lox f2 => loxFnEq f1 f2
  | .native f1, .native f2 => nativeFnEq f1 f2
  | _, _ => false

/-- Rust's derived `PartialEq for Value` (the `val1 == val2` used in the
catch-all arm of `Interpreter::are_equal`). -/
def valueEq : Value → Value → Bool
  | .number n1, .number n2 => Float64.feq n1 n2
  | .nil, .nil => true
  | .boolean b1, .boolean b2 => decide (b1 = b2)
  | .string s1, .string s2 => decide (s1 = s2)
  | .callable c1, .callable c2 => callableEq c1 c2
  | _, _ => false

/-- Rust `Interpreter::are_equal` (`interpreter.rs` lines 299-306): numbers,
booleans and strings by their own comparisons, everything else by the
derived `Value` equality. -/
def areEqual : Value → Value → Bool
  | .number n1, .number n2 => Float64.feq n1 n2
  | .boolean b1, .boolean b2 => decide (b1 = b2)
  | .string s1, .string s2 => decide (s1 = s2)
  | v1, v2 => valueEq v1 v2

/-- The pure dispatch of `Interpreter::unary` after the operand has been
evaluated (`interpreter.rs` lines 189-202, arm order preserved). -/
def unaryOp (operator : Token) (value : Value) : Except RuntimeError Value :=
  match value, operator.kind with
  | .number v, .minus => .ok (.number (Float64.fneg v))
  | val, .bang => .ok (.boolean (!isTruthy val))
  | value, .minus => .error (.notANumber operator.line value.typeName)
  | _, _ => .error .invalidExpression

/-- The pure dispatch of `Interpreter::binary` after both operands have
been evaluated (`interpreter.rs` lines 208-245, arm order preserved:
note `Minus` on non-numbers falls through to `InvalidExpression`). -/
def binaryOp (operator : Token) (left right : Value) : Except RuntimeError Value :=
  match operator.kind, left, right with
  | .equalEqual, v1, v2 => .ok (.boolean (areEqual v1 v2))
  | .bangEqual, v1, v2 => .ok (.boolean (!areEqual v1 v2))
  | .plus, .number n1, .number n2 => .ok (.number (Float64.fadd n1 n2))
  | .minus, .number n1, .number n2 => .ok (.number (Float64.fsub n1 n2))
  | .star, .number n1, .number n2 => .ok (.number (Float64.fmul n1 n2))
  | .slash, .number n1, .number n2 =>
    if Float64.feq n2 Float64.zero then .error (.zeroDivision operator.line)
    else .ok (.number (Float64.fdiv n1 n2))
  | .less, .number n1, .number n2 => .ok (.boolean (Float64.flt n1 n2))
  | .lessEqual, .number n1, .number n2 => .ok (.boolean (Float64.fle n1 n2))
  | .greater, .number n1, .number n2 => .ok (.boolean (Float64.fgt n1 n2))
  | .greaterEqual, .number n1, .number n2 => .ok (.boolean (Float64.fge n1 n2))
  | .plus, .string s1, .string s2 => .ok (.string (s1 ++ s2))
  | .greater, v1, v2 | .greaterEqual, v1, v2 | .less, v1, v2 | .lessEqual, v1, v2
  | .plus, v1, v2 | .star, v1, v2 | .slash, v1, v2 =>
    .error (.wrongBinaryOperationType operator.line operator.kind.symbol
      v1.typeName v2.typeName)
  | _, _, _ => .error .invalidExpression

/-- One evaluator step's outcome: `none` models fuel exhaustion (the
Rust code simply keeps running), otherwise the `Result` plus the state
after the step. -/
abbrev EvalRes (α : Type) : Type := Option (Except RuntimeError α × InterpState)

/-- Rust `Interpreter::with_branching` (`interpreter.rs` lines 320-332):
save the current scope id, branch the action's scope from
`baseBranch`, run the action, then unconditionally release the branched
scope and restore the saved id. -/
def withBranching (baseBranch : Nat) (action : InterpState → EvalRes Value)
    (st : InterpState) : EvalRes Value :=
  let old := st.currentId
  let branched := st.env.branch baseBranch []
  match action { st with env := branched.2, currentId := branched.1 } with
  | none => none
  | some (res, st2) =>
    some (res, { st2 with env := (st2.env.release branched.1).2, currentId := old })

/-- The parameter-binding loop of `LoxFn::call` (`args.drain(..)
.enumerate().for_each(define_var)`): define each parameter in the
current scope, in positional order. -/
def defineParams (params : List String) (args : List Value) (st : InterpState) :
    InterpState :=
  (params.zip args).foldl
    (fun s p => { s with env := s.env.define s.currentId p.1 p.2 }) st

/-- Rust `Interpreter::interpret_function_definition` (`interpreter.rs`
lines 129-147): branch a fresh child of the current scope as the
capture anchor, build the function value around that id, and define it
in the current scope. -/
def interpretFunctionDefinition (name : String) (params : List String)
    (body : List Stmt) (st : InterpState) : Except RuntimeError Value × InterpState :=
  let branched := st.env.branch st.currentId []
  let fn : Value := .callable (.lox
    { name := name, params := params, body := body, contextId := branched.1 })
  (.ok .nil, { st with env := branched.2.define st.currentId name fn })

mutual

/-- Rust `Interpreter::interpret_stmts`: run the statements in order,
stopping at the first error; `Ok(Nil)` on completion. -/
def interpretStmts : Nat → List Stmt → InterpState → EvalRes Value
  | 0, _, _ => none
  | fuel + 1, stmts, st =>
    match stmts with
    | [] => some (.ok .nil, st)
    | s :: rest =>
      match interpretStmt fuel s st with
      | none => none
      | some (.error e, st1) => some (.error e, st1)
      | some (.ok _, st1) => interpretStmts fuel rest st1

/-- Rust `Interpreter::interpret_stmt`. -/
def interpretStmt : Nat → Stmt → InterpState → EvalRes Unit
  | 0, _, _ => none
  | fuel + 1, s, st =>
    match s with
    | .expr e =>
      match interpretExpr fuel e st with
      | none => none
      | some (.error err, st1) => some (.error err, st1)
      | some (.ok _, st1) => some (.ok (), st1)
    | .print e =>
      match interpretExpr fuel e st with
      | none => none
      | some (.error err, st1) => some (.error err, st1)
      | some (.ok v, st1) => some (.ok (), { st1 with output := st1.output ++ [v.toString] })
    | .var name e _ =>
      match interpretExpr fuel e st with
      | none => none
      | some (.error err, st1) => some (.error err, st1)
      | some (.ok v, st1) => some (.ok (), { st1 with env := st1.env.define st1.currentId name v })
    | .scopeBlock stmts => interpretScopeBlockStmt fuel stmts st
    | .ifStmt c t e => interpretIf fuel c t e st
    | .whileStmt c b => interpretWhile fuel c b st
    | .function name params body =>
      let (_, st1) := interpretFunctionDefinition name params body st
      some (.ok (), st1)
    | .Return e => interpretReturn fuel e st

/-- Rust `Interpreter::interpret_scope_block_stmt` (`interpreter.rs` lines
90-96): branch a fresh scope and enter it, run the statements, and —
only on the `Ok` path, because of the `?` operator — release the scope
and restore `current_id` to the returned parent. -/
def interpretScopeBlockStmt : Nat → List Stmt → InterpState → EvalRes Unit
  | 0, _, _ => none
  | fuel + 1, stmts, st =>
    let branched := st.env.branch st.currentId []
    match interpretStmts fuel stmts { st with env := branched.2, currentId := branched.1 } with
    | none => none
    | some (.error e, st2) => some (.error e, st2)
    | some (.ok _, st2) =>
      let released := st2.env.release st2.currentId
      some (.ok (), { st2 with env := released.2, currentId := released.1 })

/-- Rust `Interpreter::interpret_if`. -/
def interpretIf : Nat → Expr → Stmt → Option Stmt → InterpState → EvalRes Unit
  | 0, _, _, _, _ => none
  | fuel + 1, condition, then_, els, st =>
    match interpretExpr fuel condition st with
    | none => none
    | some (.error e, st1) => some (.error e, st1)
    | some (.ok v, st1) =>
      if isTruthy v then
        match interpretStmts fuel [then_] st1 with
        | none => none
        | some (.error e, st2) => some (.error e, st2)
        | some (.ok _, st2) => some (.ok (), st2)
      else
        match els with
        | none => some (.ok (), st1)
        | some e =>
          match interpretStmts fuel [e] st1 with
          | none => none
          | some (.error err, st2) => some (.error err, st2)
          | some (.ok _, st2) => some (.ok (), st2)

/-- Rust `Interpreter::interpret_while`. -/
def interpretWhile : Nat → Expr → Stmt → InterpState → EvalRes Unit
  | 0, _, _, _ => none
  | fuel + 1, condition, body, st =>
    match interpretExpr fuel condition st with
    | none => none
    | some (.error e, st1) => some (.error e, st1)
    | some (.ok v, st1) =>
      if isTruthy v then
        match interpretStmt fuel body st1 with
        | none => none
        | some (.error e, st2) => some (.error e, st2)
        | some (.ok _, st2) => interpretWhile fuel condition body st2
      else some (.ok (), st1)

/-- Rust `Interpreter::interpret_return`: evaluate the expression and raise
the non-local `Return` signal on the error channel. -/
def interpretReturn : Nat → Expr → InterpState → EvalRes Unit
  | 0, _, _ => none
  | fuel + 1, e, st =>
    match interpretExpr fuel e st with
    | none => none
    | some (.error err, st1) => some (.error err, st1)
    | some (.ok v, st1) => some (.error (.Return v), st1)

/-- Rust `Interpreter::interpret_expr`. -/
def interpretExpr : Nat → Expr → InterpState → EvalRes Value
  | 0, _, _ => none
  | fuel + 1, e, st =>
    match e with
    | .literalNumber v => some (.ok (.number v), st)
    | .literalNil => some (.ok .nil, st)
    | .literalBool b => some (.ok (.boolean b), st)
    | .literalString s => some (.ok (.string s), st)
    | .group inner => interpretExpr fuel inner st
    | .unary operator right =>
      match interpretExpr fuel right st with
      | none => none
      | some (.error err, st1) => some (.error err, st1)
      | some (.ok v, st1) => some (unaryOp operator v, st1)
    | .binary left operator right =>
      match interpretExpr fuel left st with
      | none => none
      | some (.error err, st1) => some (.error err, st1)
      | some (.ok v1, st1) =>
        match interpretExpr fuel right st1 with
        | none => none
        | some (.error err, st2) => some (.error err, st2)
        | some (.ok v2, st2) => some (binaryOp operator v1 v2, st2)
    | .variable name line =>
      match st.env.get st.currentId name with
      | none => some (.error (.undefinedVariable line name), st)
      | some v => some (.ok v, st)
    | .assign name value line =>
      match interpretExpr fuel value st with
      | none => none
      | some (.error err, st1) => some (.error err, st1)
      | some (.ok v, st1) =>
        match st1.env.assign st1.currentId name v with
        | none => some (.error (.undefinedVariable line name), st1)
        | some env1 => some (.ok v, { st1 with env := env1 })
    | .logical left operator right =>
      match interpretExpr fuel left st with
      | none => none
      | some (.error err, st1) => some (.error err, st1)
      | some (.ok v1, st1) =>
        match operator.kind with
        | .and => if isTruthy v1 then interpretExpr fuel right st1 else some (.ok v1, st1)
        | .or => if isTruthy v1 then some (.ok v1, st1) else interpretExpr fuel right st1
        | _ => some (.error .invalidExpression, st1)
    | .call line callee args => interpretCall fuel callee args line st

/-- Rust `Interpreter::interpret_call` (`interpreter.rs` lines 276-297):
evaluate the callee, then ALL argument expressions left-to-right, and
only then test whether the callee value is callable. -/
def interpretCall : Nat → Expr → List Expr → Nat → InterpState → EvalRes Value
  | 0, _, _, _, _ => none
  | fuel + 1, callee, args, line, st =>
    match interpretExpr fuel callee st with
    | none => none
    | some (.error err, st1) => some (.error err, st1)
    | some (.ok calleeValue, st1) =>
      match evalArgs fuel args st1 with
      | none => none
      | some (.error err, st2) => some (.error err, st2)
      | some (.ok argValues, st2) =>
        match calleeValue with
        | .callable loxFn => callableCall fuel loxFn argValues line st2
        | v => some (.error (.notAFunction line v.typeName), st2)

/-- The argument collection loop of `interpret_call` (`args.iter().map(
interpret_expr).collect::<Result<Vec<_>,_>>()`): left-to-right, first
error wins. -/
def evalArgs : Nat → List Expr → InterpState → EvalRes (List Value)
  | 0, _, _ => none
  | fuel + 1, args, st =>
    match args with
    | [] => some (.ok [], st)
    | a :: rest =>
      match interpretExpr fuel a st with
      | none => none
      | some (.error err, st1) => some (.error err, st1)
      | some (.ok v, st1) =>
        match evalArgs fuel rest st1 with
        | none => none
        | some (.error err, st2) => some (.error err, st2)
        | some (.ok vs, st2) => some (.ok (v :: vs), st2)

/-- Rust `Callable::call`: dispatch to the user or native implementation.
`NativeFn::call` runs the host implementation directly, with no scope
work and no arity check. -/
def callableCall : Nat → Callable → List Value → Nat → InterpState → EvalRes Value
  | 0, _, _, _, _ => none
  | fuel + 1, c, args, line, st =>
    match c with
    | .native nf => some (nf.implementation.run st args, st)
    | .lox f => loxFnCall fuel f args line st

/-- Rust `LoxFn::call` (`lox_fn.rs` lines 97-125): arity check first, then
`with_branching` from the captured scope: bind parameters, run the
body, and materialize a surfacing `Return(value)` into `Ok(value)`. -/
def loxFnCall : Nat → LoxFn → List Value → Nat → InterpState → EvalRes Value
  | 0, _, _, _, _ => none
  | fuel + 1, f, args, line, st =>
    if ¬ args.length = f.params.length then
      some (.error (.wrongNumberOfArguments line f.name f.params.length args.length), st)
    else
      withBranching f.contextId
        (fun st1 =>
          match interpretStmts fuel f.body (defineParams f.params args st1) with
          | none => none
          | some (.error (.Return v), st2) => some (.ok v, st2)
          | some (other, st2) => some (other, st2))
        st

end

theorem decideEqSymm {α : Type} [DecidableEq α] (a b : α) :
    decide (a = b) = decide (b = a) := by
  by_cases h : a = b
  · subst h; rfl
  · have h2 : ¬ b = a := fun hh => h hh.symm
    simp [h, h2]

theorem Float64.feq_symm (a b : Float64) : Float64.feq a b = Float64.feq b a := by
  cases a <;> cases b <;> simp [Float64.feq] <;> exact ⟨fun h => h.symm, fun h => h.symm⟩

mutual

theorem exprEq_symm (a b : Expr) : exprEq a b = exprEq b a := by
  cases a <;> cases b <;> simp only [exprEq]
  case literalNumber.literalNumber v1 v2 => exact Float64.feq_symm v1 v2
  case literalBool.literalBool b1 b2 => exact decideEqSymm b1 b2
  case literalString.literalString s1 s2 => exact decideEqSymm s1 s2
  case binary.binary l1 o1 r1 l2 o2 r2 =>
    rw [exprEq_symm l1 l2, exprEq_symm r1 r2, decideEqSymm o1 o2]
  case logical.logical l1 o1 r1 l2 o2 r2 =>
    rw [exprEq_symm l1 l2, exprEq_symm r1 r2, decideEqSymm o1 o2]
  case unary.unary o1 r1 o2 r2 =>
    rw [exprEq_symm r1 r2, decideEqSymm o1 o2]
  case call.call l1 c1 a1 l2 c2 a2 =>
    rw [exprEq_symm c1 c2, exprsEq_symm a1 a2, decideEqSymm l1 l2]
  case group.group e1 e2 => exact exprEq_symm e1 e2
  case variable.variable n1 l1 n2 l2 =>
    rw [decideEqSymm n1 n2, decideEqSymm l1 l2]
  case assign.assign n1 v1 l1 n2 v2 l2 =>
    rw [exprEq_symm v1 v2, decideEqSymm n1 n2, decideEqSymm l1 l2]

theorem exprsEq_symm (a b : List Expr) : exprsEq a b = exprsEq b a := by
  cases a <;> cases b <;> simp only [exprsEq]
  case cons.cons e1 r1 e2 r2 =>
    rw [exprEq_symm e1 e2, exprsEq_symm r1 r2]

end

mutual

theorem stmtEq_symm (a b : Stmt) : stmtEq a b = stmtEq b a := by
  cases a <;> cases b <;> simp only [stmtEq]
  case expr.expr e1 e2 => exact exprEq_symm e1 e2
  case print.print e1 e2 => exact exprEq_symm e1 e2
  case var.var n1 e1 l1 n2 e2 l2 =>
    rw [exprEq_symm e1 e2, decideEqSymm n1 n2, decideEqSymm l1 l2]
  case scopeBlock.scopeBlock s1 s2 => exact stmtsEq_symm s1 s2
  case ifStmt.ifStmt c1 t1 e1 c2 t2 e2 =>
    rw [exprEq_symm c1 c2, stmtEq_symm t1 t2, optStmtEq_symm e1 e2]
  case whileStmt.whileStmt c1 b1 c2 b2 =>
    rw [exprEq_symm c1 c2, stmtEq_symm b1 b2]
  case function.function n1 p1 b1 n2 p2 b2 =>
    rw [stmtsEq_symm b1 b2, decideEqSymm n1 n2, decideEqSymm p1 p2]
  case Return.Return e1 e2 => exact exprEq_symm e1 e2

theorem stmtsEq_symm (a b : List Stmt) : stmtsEq a b = stmtsEq b a := by
  cases a <;> cases b <;> simp only [stmtsEq]
  case cons.cons s1 r1 s2 r2 =>
    rw [stmtEq_symm s1 s2, stmtsEq_symm r1 r2]

theorem optStmtEq_symm (a b : Option Stmt) : optStmtEq a b = optStmtEq b a := by
  cases a <;> cases b <;> simp only [optStmtEq]
  case some.some s1 s2 => exact stmtEq_symm s1 s2

end

theorem loxFnEq_symm (a b : LoxFn) : loxFnEq a b = loxFnEq b a := by
  unfold loxFnEq
  rw [stmtsEq_symm a.body b.body, decideEqSymm a.name b.name,
    decideEqSymm a.params b.params, decideEqSymm a.contextId b.contextId]

theorem nativeFnEq_symm (a b : NativeFn) : nativeFnEq a b = nativeFnEq b a := by
  unfold nativeFnEq; exact decideEqSymm a.name b.name

theorem callableEq_symm (a b : Callable) : callableEq a b = callableEq b a := by
  cases a <;> cases b <;> simp only [callableEq]
  case lox.lox f1 f2 => exact loxFnEq_symm f1 f2
  case native.native f1 f2 => exact nativeFnEq_symm f1 f2

theorem valueEq_symm (a b : Value) : valueEq a b = valueEq b a := by
  cases a <;> cases b <;> simp only [valueEq]
  case number.number n1 n2 => exact Float64.feq_symm n1 n2
  case boolean.boolean b1 b2 => exact decideEqSymm b1 b2
  case string.string s1 s2 => exact decideEqSymm s1 s2
  case callable.callable c1 c2 => exact callableEq_symm c1 c2

theorem areEqual_symm (a b : Value) : areEqual a b = areEqual b a := by
  cases a <;> cases b <;> simp only [areEqual]
  case number.number n1 n2 => exact Float64.feq_symm n1 n2
  case boolean.boolean b1 b2 => exact decideEqSymm b1 b2
  case string.string s1 s2 => exact decideEqSymm s1 s2
  all_goals exact valueEq_symm _ _

mutual

/-- No NaN literal occurs in the expression.  The derived `Expr`
equality is reflexive exactly on such expressions. -/
def exprNanFree : Expr → Bool
  | .literalNumber v => !v.isNaNB
  | .literalBool _ => true
  | .literalString _ => true
  | .binary l _ r => exprNanFree l && exprNanFree r
  | .logical l _ r => exprNanFree l && exprNanFree r
  | .unary _ r => exprNanFree r
  | .call _ c a => exprNanFree c && exprsNanFree a
  | .group e => exprNanFree e
  | .literalNil => true
  | .variable _ _ => true
  | .assign _ v _ => exprNanFree v

def exprsNanFree : List Expr → Bool
  | [] => true
  | e :: r => exprNanFree e && exprsNanFree r

end

mutual

def stmtNanFree : Stmt → Bool
  | .expr e => exprNanFree e
  | .print e => exprNanFree e
  | .var _ e _ => exprNanFree e
  | .scopeBlock s => stmtsNanFree s
  | .ifStmt c t e => exprNanFree c && stmtNanFree t && optStmtNanFree e
  | .whileStmt c b => exprNanFree c && stmtNanFree b
  | .function _ _ b => stmtsNanFree b
  | .Return e => exprNanFree e

def stmtsNanFree : List Stmt → Bool
  | [] => true
  | s :: r => stmtNanFree s && stmtsNanFree r

def optStmtNanFree : Option Stmt → Bool
  | none => true
  | some s => stmtNanFree s

end

/-- No NaN occurs anywhere in the value: neither as the number itself
nor inside the number literals of a user function's stored body. -/
def valueNanFree : Value → Bool
  | .number n => !n.isNaNB
  | .callable (.lox f) => stmtsNanFree f.body
  | .callable (.native _) => true
  | _ => true

theorem Float64.feq_refl (a : Float64) (h : a.isNaNB = false) : a.feq a = true := by
  cases a <;> simp_all [Float64.feq, Float64.isNaNB]

mutual

theorem exprEq_refl (a : Expr) (h : exprNanFree a = true) : exprEq a a = true := by
  cases a <;> simp only [exprNanFree, Bool.and_eq_true] at h <;>
    simp only [exprEq, Bool.and_eq_true]
  case literalNumber v => exact Float64.feq_refl v (by simpa using h)
  case literalBool b => simp
  case literalString s => simp
  case binary l o r => exact ⟨⟨exprEq_refl l h.1, by simp⟩, exprEq_refl r h.2⟩
  case logical l o r => exact ⟨⟨exprEq_refl l h.1, by simp⟩, exprEq_refl r h.2⟩
  case unary o r => exact ⟨by simp, exprEq_refl r h⟩
  case call l c a => exact ⟨⟨by simp, exprEq_refl c h.1⟩, exprsEq_refl a h.2⟩
  case group e => exact exprEq_refl e h
  case «variable» n l => simp
  case assign n v l => exact ⟨⟨by simp, exprEq_refl v h⟩, by simp⟩

theorem exprsEq_refl (a : List Expr) (h : exprsNanFree a = true) : exprsEq a a = true := by
  cases a <;> simp only [exprsNanFree, Bool.and_eq_true] at h <;>
    simp only [exprsEq, Bool.and_eq_true]
  case cons e r => exact ⟨exprEq_refl e h.1, exprsEq_refl r h.2⟩

end

mutual

theorem stmtEq_refl (a : Stmt) (h : stmtNanFree a = true) : stmtEq a a = true := by
  cases a <;> simp only [stmtNanFree, Bool.and_eq_true] at h <;>
    simp only [stmtEq, Bool.and_eq_true]
  case expr e => exact exprEq_refl e h
  case print e => exact exprEq_refl e h
  case var n e l => exact ⟨⟨by simp, exprEq_refl e h⟩, by simp⟩
  case scopeBlock s => exact stmtsEq_refl s h
  case ifStmt c t e =>
    exact ⟨⟨exprEq_refl c h.1.1, stmtEq_refl t h.1.2⟩, optStmtEq_refl e h.2⟩
  case whileStmt c b => exact ⟨exprEq_refl c h.1, stmtEq_refl b h.2⟩
  case function n p b => exact ⟨⟨by simp, by simp⟩, stmtsEq_refl b h⟩
  case Return e => exact exprEq_refl e h

theorem stmtsEq_refl (a : List Stmt) (h : stmtsNanFree a = true) : stmtsEq a a = true := by
  cases a <;> simp only [stmtsNanFree, Bool.and_eq_true] at h <;>
    simp only [stmtsEq, Bool.and_eq_true]
  case cons s r => exact ⟨stmtEq_refl s h.1, stmtsEq_refl r h.2⟩

theorem optStmtEq_refl (a : Option Stmt) (h : optStmtNanFree a = true) :
    optStmtEq a a = true := by
  cases a <;> simp only [optStmtNanFree] at h <;> simp only [optStmtEq]
  case some s => exact stmtEq_refl s h

end

theorem valueEq_refl (a : Value) (h : valueNanFree a = true) : valueEq a a = true := by
  cases a <;> simp only [valueNanFree] at h <;> simp only [valueEq]
  case number n => exact Float64.feq_refl n (by simpa using h)
  case boolean b => simp
  case string s => simp
  case callable c =>
    cases c <;> simp only [callableEq]
    case lox f =>
      unfold loxFnEq
      simp only [Bool.and_eq_true]
      exact ⟨⟨⟨by simp, by simp⟩, stmtsEq_refl f.body (by simpa using h)⟩, by simp⟩
    case native f => unfold nativeFnEq; simp

theorem areEqual_refl (a : Value) (h : valueNanFree a = true) : areEqual a a = true := by
  cases a <;> simp only [areEqual]
  case number n => exact Float64.feq_refl n (by simpa [valueNanFree] using h)
  case boolean b => simp
  case string s => simp
  all_goals exact valueEq_refl _ h

theorem Arena.lookup_set (a : Arena) (i j : Nat) (n : Node) :
    (Arena.set i n a).lookup j = if j = i then some n else a.lookup j := by
  induction a with
  | nil =>
    by_cases h : j = i
    · simp [Arena.set, Arena.lookup, h]
    · have h2 : ¬ i = j := fun hh => h hh.symm
      simp [Arena.set, Arena.lookup, h, h2]
  | cons hd tl ih =>
    rcases hd with ⟨k, v⟩
    by_cases hk : k = i
    · subst hk
      by_cases hj : j = k
      · subst hj
        simp [Arena.set, Arena.lookup]
      · have hkj : ¬ k = j := fun hh => hj hh.symm
        simp [Arena.set, Arena.lookup, hj, hkj]
    · by_cases hj : k = j
      · subst hj
        have hji : ¬ k = i := hk
        simp [Arena.set, Arena.lookup, hk, hji]
      · simp [Arena.set, Arena.lookup, hk, hj, ih]

theorem Arena.lookup_remove (a : Arena) (i j : Nat) :
    (Arena.remove i a).lookup j = if j = i then none else a.lookup j := by
  induction a with
  | nil => simp [Arena.remove, Arena.lookup]
  | cons hd tl ih =>
    rcases hd with ⟨k, v⟩
    by_cases hk : k = i
    · subst hk
      by_cases hj : j = k
      · subst hj
        simp [Arena.remove, Arena.lookup, ih]
      · have hkj : ¬ k = j := fun hh => hj hh.symm
        simp [Arena.remove, Arena.lookup, hj, hkj, ih]
    · by_cases hj : k = j
      · subst hj
        have hji : ¬ k = i := hk
        simp [Arena.remove, Arena.lookup, hk, hji, ih]
      · simp [Arena.remove, Arena.lookup, hk, hj, ih]

/-- The function `interpret_stmts` can only succeed with `Ok(Nil)` (its `Ok` value
is always `Value::Nil`). -/
theorem interpretStmts_ok_nil (fuel : Nat) : ∀ (stmts : List Stmt) (st : InterpState)
    (v : Value) (st2 : InterpState),
    interpretStmts fuel stmts st = some (.ok v, st2) → v = .nil := by
  induction fuel with
  | zero => intro stmts st v st2 h; simp [interpretStmts] at h
  | succ f ih =>
    intro stmts st v st2 h
    match stmts with
    | [] =>
      simp only [interpretStmts, Option.some.injEq, Prod.mk.injEq, Except.ok.injEq] at h
      exact h.1.symm
    | s :: rest =>
      simp only [interpretStmts] at h
      cases hs : interpretStmt f s st with
      | none => rw [hs] at h; simp at h
      | some r =>
        rcases r with ⟨res, st1⟩
        rw [hs] at h
        cases res with
        | error e => simp at h
        | ok u => simp only at h; exact ih rest st1 v st2 h

/-- The function `with_branching` restores `current_id` on every exit path. -/
theorem withBranching_restores (base : Nat) (action : InterpState → EvalRes Value)
    (st : InterpState) (res : Except RuntimeError Value) (st2 : InterpState)
    (h : withBranching base action st = some (res, st2)) :
    st2.currentId = st.currentId := by
  unfold withBranching at h
  dsimp only at h
  cases hact : (action { st with env := (st.env.branch base []).2, currentId := (st.env.branch base []).1 }) with
  | none =>
    rw [hact] at h
    simp at h
  | some r =>
    rcases r with ⟨res1, stA⟩
    rw [hact] at h
    simp only [Option.some.injEq, Prod.mk.injEq] at h
    rw [← h.2]

/-- A concrete evaluator state: `Interpreter::new` with the host clock
fixed at 0 (the arena holds the root and the global scope `1` with the
native `clock` defined). -/
def demoState : InterpState := Interpreter.new (.finite 0)

/-- A concrete zero-parameter user function whose body is
`return 10;`, capturing the global scope. -/
def demoFn : LoxFn :=
  { name := "f", params := [], body := [.Return (.literalNumber (.finite 10))],
    contextId := 1 }

/-- The outcome of calling `demoFn` with no arguments at line 3. -/
def demoCallOut : EvalRes Value := loxFnCall 10 demoFn [] 3 demoState

def demoCallRes : Except RuntimeError Value := (demoCallOut.getD (.ok .nil, demoState)).1

def demoCallSt : InterpState := (demoCallOut.getD (.ok .nil, demoState)).2

/-- The two-branch arena used to exhibit reference-count retention:
root `0` → node `1` → node `2`, so `ref_count(1) = 1`. -/
def demoArena1 : BranchingScope := ((BranchingScope.empty.branch 0 []).2.branch 1 []).2

/-- State `demoArena1` after `release 1`: node `1` is retained because its
reference count is positive. -/
def demoArenaReleased : BranchingScope := (demoArena1.release 1).2

/-- C1.  Executing a block statement does NOT restore `current_id` on
the error path: at the concrete failing input `{ x; }` (an undefined
variable inside a block), `interpret_scope_block_stmt` propagates the
error with `current_id` still pointing at the fresh block scope (id 2,
not the pre-state id 1), and the block's scope is still in the arena
(never released).  The `?` on `interpret_stmts` skips the cleanup the
spec requires on every exit path. -/
theorem c1_block_cleanup_skipped_on_error :
    (interpretScopeBlockStmt 10 [.expr (.variable "x" 1)] demoState).map
        (fun r => (r.1, r.2.currentId, (r.2.env.nodes.lookup 2).isSome)) =
      some (.error (.undefinedVariable 1 "x"), 2, true) ∧
    demoState.currentId = 1 := ⟨rfl, rfl⟩

/-- C2 counterexample.  In `demoArenaReleased`, node 1 was retained by
`release` with `ref_count 1`.  Releasing its child (node 2) is the
operation that decrements node 1's count to zero — yet node 1 is still
in the arena afterwards: the decrement never removes a node, so the
claim's "destroyed at the moment its reference count reaches zero" is
false. -/
theorem c2_counterexample :
    demoArenaReleased.nodes.lookup 1 = some (.child [] 0 1) ∧
    (demoArenaReleased.release 2).2.nodes.lookup 1 = some (.child [] 0 0) := ⟨rfl, rfl⟩

/-- C2 (amended).  A node with a positive reference count survives
`release` unchanged; and `remove_ref_from_node` (the only operation
that decrements a count, including down to zero) never removes any node
from the arena — a retained node is destroyed only if `release` is
called on it again when its count is zero, which the interpreter never
does. -/
theorem c2_amended (bs : BranchingScope) (id : Nat) (d : Scope) (p rc : Nat)
    (hn : bs.nodes.lookup id = some (.child d p rc)) (hrc : ¬ rc = 0) :
    (bs.release id).2.nodes.lookup id = some (.child d p rc) ∧
    ∀ (bs2 : BranchingScope) (i j : Nat),
      ((bs2.removeRefFromNode i).nodes.lookup j).isSome = (bs2.nodes.lookup j).isSome := by
  constructor
  · simp [BranchingScope.release, hn, hrc]
  · intro bs2 i j
    unfold BranchingScope.removeRefFromNode
    cases h2 : bs2.nodes.lookup i with
    | none => rfl
    | some n =>
      cases n with
      | base => rfl
      | child d2 p2 r2 =>
        dsimp only
        rw [Arena.lookup_set]
        by_cases hj : j = i
        · subst hj; simp [h2]
        · simp [hj]

/-- C2 witness: the amended theorem applied to `demoArena1` at node 1
(`ref_count 1`). -/
theorem c2_witness :
    (demoArena1.release 1).2.nodes.lookup 1 = some (.child [] 0 1) ∧
    ((demoArena1.removeRefFromNode 0).nodes.lookup 0).isSome =
      (demoArena1.nodes.lookup 0).isSome :=
  ⟨(c2_amended demoArena1 1 [] 0 1 rfl (by decide)).1,
   (c2_amended demoArena1 1 [] 0 1 rfl (by decide)).2 demoArena1 0 0⟩

/-- The state after evaluating `fun f() {}` in the fresh interpreter. -/
def demoFnDef : Except RuntimeError Value × InterpState :=
  interpretFunctionDefinition "f" [] [] demoState

/-- C3 counterexample.  After `interpret_function_definition` in the
fresh interpreter, the new `UserFunction` value stores anchor id 2 —
and that node's `ref_count` is 0, not non-zero: `branch` increments the
reference count of the SOURCE (the defining scope, id 1), never of the
new child itself. -/
theorem c3_counterexample :
    demoFnDef.2.env.get 1 "f" = some (.callable (.lox ⟨"f", [], [], 2⟩)) ∧
    demoFnDef.2.env.nodes.lookup 2 = some (.child [] 1 0) := ⟨rfl, rfl⟩

/-- C3 (amended).  Evaluating a function definition branches a fresh
child of the current scope as the capture anchor and stores its id in
the function value; immediately afterwards the anchor node exists with
`ref_count = 0` and an empty scope, while the CURRENT scope's reference
count has been incremented by one (and now also holds the function
under its name). -/
theorem c3_amended (st : InterpState) (name : String) (params : List String)
    (body : List Stmt) (d : Scope) (p rc : Nat)
    (hcur : st.env.nodes.lookup st.currentId = some (.child d p rc))
    (hne : ¬ st.currentId = st.env.current + 1) :
    (interpretFunctionDefinition name params body st).2.env.nodes.lookup
        (st.env.current + 1) = some (.child [] st.currentId 0) ∧
    (interpretFunctionDefinition name params body st).2.env.nodes.lookup st.currentId =
      some (.child
        (Scope.insert name (.callable (.lox ⟨name, params, body, st.env.current + 1⟩)) d)
        p (rc + 1)) := by
  have hb1 : Arena.lookup
      (Arena.set (st.env.current + 1) (.child [] st.currentId 0) st.env.nodes)
      st.currentId = some (.child d p rc) := by
    rw [Arena.lookup_set]
    simp [hne, hcur]
  have hb2 : (st.env.branch st.currentId []).2.nodes =
      Arena.set st.currentId (.child d p (rc + 1))
        (Arena.set (st.env.current + 1) (.child [] st.currentId 0) st.env.nodes) := by
    show (BranchingScope.addRefToNode _ st.currentId).nodes = _
    unfold BranchingScope.addRefToNode
    dsimp only
    rw [hb1]
  have hb3 : Arena.lookup ((st.env.branch st.currentId []).2.nodes) st.currentId =
      some (.child d p (rc + 1)) := by
    rw [hb2, Arena.lookup_set]
    simp
  constructor
  · show Arena.lookup ((BranchingScope.define _ st.currentId name _).nodes) _ = _
    unfold BranchingScope.define
    rw [hb3]
    rw [hb2, Arena.lookup_set, Arena.lookup_set, Arena.lookup_set]
    have hne2 : ¬ st.env.current + 1 = st.currentId := fun hh => hne hh.symm
    simp [hne2]
  · show Arena.lookup ((BranchingScope.define _ st.currentId name _).nodes) _ = _
    unfold BranchingScope.define
    rw [hb3]
    rw [Arena.lookup_set]
    simp
    rfl

/-- C3 witness: the amended theorem applied to the fresh interpreter
state (current scope 1 holds `clock`; the anchor becomes node 2). -/
theorem c3_witness :
    (interpretFunctionDefinition "g" [] [] demoState).2.env.nodes.lookup 2 =
      some (.child [] 1 0) ∧
    (interpretFunctionDefinition "g" [] [] demoState).2.env.nodes.lookup 1 =
      some (.child
        (Scope.insert "g" (.callable (.lox ⟨"g", [], [], 2⟩))
          [("clock", .callable (.native ⟨"clock", .clock⟩))])
        0 1) :=
  c3_amended demoState "g" [] []
    [("clock", .callable (.native ⟨"clock", .clock⟩))] 0 0
    rfl (by decide)

/-- C4 counterexample.  `NativeFn::call` performs no arity check:
calling the zero-parameter native `clock` with one argument succeeds
(returning the host time) instead of failing with
`WrongNumberOfArguments`. -/
theorem c4_counterexample :
    callableCall 5 (.native ⟨"clock", .clock⟩) [.nil] 7 demoState =
      some (.ok (.number (.finite 0)), demoState) := rfl

/-- C4 (amended).  A USER function of arity `k` called with `n ≠ k`
arguments fails with `WrongNumberOfArguments(line, name, k, n)` and the
body is not executed (the state is returned untouched); a NATIVE
function performs no arity check at all — its implementation is invoked
regardless of the argument count. -/
theorem c4_amended (fuel : Nat) (f : LoxFn) (args : List Value) (line : Nat)
    (st : InterpState) (h : ¬ args.length = f.params.length) :
    loxFnCall (fuel + 1) f args line st =
      some (.error (.wrongNumberOfArguments line f.name f.params.length args.length), st) ∧
    ∀ (fuel2 : Nat) (nf : NativeFn) (args2 : List Value) (line2 : Nat) (st2 : InterpState),
      callableCall (fuel2 + 1) (.native nf) args2 line2 st2 =
        some (nf.implementation.run st2 args2, st2) := by
  refine ⟨?_, ?_⟩
  · unfold loxFnCall
    rw [if_pos h]
  · intro fuel2 nf args2 line2 st2
    rfl

/-- C4 witness: calling the 0-ary `demoFn` with one argument. -/
theorem c4_witness :
    loxFnCall 10 demoFn [.nil] 3 demoState =
      some (.error (.wrongNumberOfArguments 3 "f" 0 1), demoState) :=
  (c4_amended 9 demoFn [.nil] 3 demoState (by decide)).1

/-- C5.  For a user-function call with matching arity: the call result
is never a `Return` signal; if the body surfaced `Return(v)` the call
returns `Ok(v)`, and if the body completed normally the call returns
`Ok(Nil)` (`interpret_stmts` only ever succeeds with `Nil`). -/
theorem c5_return_materialized (fuel : Nat) (f : LoxFn) (args : List Value)
    (line : Nat) (st : InterpState) (h : args.length = f.params.length)
    (res : Except RuntimeError Value) (st2 : InterpState)
    (hcall : loxFnCall (fuel + 1) f args line st = some (res, st2))
    (bodyRes : Except RuntimeError Value) (st3 : InterpState)
    (hbody : interpretStmts fuel f.body (defineParams f.params args
      { st with env := (st.env.branch f.contextId []).2,
                currentId := (st.env.branch f.contextId []).1 }) = some (bodyRes, st3)) :
    (∀ w, ¬ res = .error (.Return w)) ∧
    (∀ v, bodyRes = .error (.Return v) → res = .ok v) ∧
    (∀ u, bodyRes = .ok u → res = .ok .nil) := by
  unfold loxFnCall at hcall
  rw [if_neg (fun hh => hh h)] at hcall
  unfold withBranching at hcall
  dsimp only at hcall
  rw [hbody] at hcall
  cases bodyRes with
  | ok u =>
    simp at hcall
    have hu : u = Value.nil :=
      interpretStmts_ok_nil fuel f.body _ u st3 hbody
    refine ⟨fun w hres => ?_, fun v hv => ?_, fun u' hu' => ?_⟩
    · rw [← hcall.1] at hres
      exact Except.noConfusion hres
    · exact Except.noConfusion hv
    · rw [← hcall.1, hu]
  | error e =>
    cases e
    case Return v =>
      simp at hcall
      refine ⟨fun w hres => ?_, fun v' hv' => ?_, fun u' hu' => ?_⟩
      · rw [← hcall.1] at hres
        exact Except.noConfusion hres
      · injection hv' with hh
        injection hh with hh2
        rw [← hcall.1, hh2]
      · exact Except.noConfusion hu'
    all_goals simp at hcall
    all_goals refine ⟨fun w hres => ?_, fun v' hv' => ?_, fun u' hu' => ?_⟩
    all_goals first
      | (rw [← hcall.1] at hres; injection hres with hh; exact RuntimeError.noConfusion hh)
      | (injection hv' with hh; exact RuntimeError.noConfusion hh)
      | exact Except.noConfusion hu'

/-- C5 witness: calling `demoFn` (body `return 10;`) yields `Ok(10)`,
which is not a `Return` signal. -/
theorem c5_witness :
    ¬ demoCallRes = .error (.Return .nil) ∧ demoCallRes = .ok (.number (.finite 10)) :=
  ⟨(c5_return_materialized 9 demoFn [] 3 demoState rfl demoCallRes demoCallSt rfl
      (.error (.Return (.number (.finite 10))))
      ((interpretStmts 9 demoFn.body (defineParams demoFn.params []
        { demoState with env := (demoState.env.branch demoFn.contextId []).2,
                         currentId := (demoState.env.branch demoFn.contextId []).1
        })).getD (.ok .nil, demoState) |>.2) rfl).1 .nil,
   rfl⟩

/-- C6.  `LoxFn::call` leaves the evaluator's `current_id` exactly as
it found it, on every exit path: the arity-error path returns the state
untouched, and `with_branching` restores the saved id after the body,
whether the body finished with a value, a runtime error, or a return
signal. -/
theorem c6_call_restores_scope (fuel : Nat) (f : LoxFn) (args : List Value)
    (line : Nat) (st : InterpState) (res : Except RuntimeError Value) (st2 : InterpState)
    (h : loxFnCall fuel f args line st = some (res, st2)) :
    st2.currentId = st.currentId := by
  match fuel with
  | 0 => simp [loxFnCall] at h
  | fuel + 1 =>
    unfold loxFnCall at h
    by_cases ha : args.length = f.params.length
    · rw [if_neg (fun hh => hh ha)] at h
      exact withBranching_restores _ _ _ _ _ h
    · rw [if_pos ha] at h
      simp at h
      rw [← h.2]

/-- C6 witness: after the concrete call of `demoFn`, `current_id` is
back at the global scope. -/
theorem c6_witness : demoCallSt.currentId = demoState.currentId :=
  c6_call_restores_scope 10 demoFn [] 3 demoState demoCallRes demoCallSt rfl

/-- C7 counterexample.  `==` is not reflexive over all values: at
`a = Number(NaN)`, `a == a` evaluates to `Boolean(false)`, because
`are_equal` compares numbers with IEEE equality and NaN ≠ NaN. -/
theorem c7_counterexample :
    areEqual (.number .nan) (.number .nan) = false ∧
    binaryOp ⟨.equalEqual, 1⟩ (.number .nan) (.number .nan) =
      .ok (.boolean false) := ⟨rfl, rfl⟩

/-- C7 (amended).  `a == a` is `Boolean(true)` for every value that
contains no NaN (reflexivity fails exactly on NaN); `a == b` equals
`b == a` for ALL values, NaN included; and `!=` always evaluates to the
boolean negation of `are_equal` (so `a != b = !(a == b)` everywhere),
with `==` evaluating to `are_equal` itself. -/
theorem c7_equality_laws :
    (∀ a, valueNanFree a = true → areEqual a a = true) ∧
    (∀ a b, areEqual a b = areEqual b a) ∧
    (∀ (t : Token) a b, t.kind = .equalEqual →
      binaryOp t a b = .ok (.boolean (areEqual a b))) ∧
    (∀ (t : Token) a b, t.kind = .bangEqual →
      binaryOp t a b = .ok (.boolean (!areEqual a b))) := by
  refine ⟨areEqual_refl, areEqual_symm, ?_, ?_⟩
  · intro t a b ht
    rcases t with ⟨k, l⟩
    dsimp only at ht
    subst ht
    rfl
  · intro t a b ht
    rcases t with ⟨k, l⟩
    dsimp only at ht
    subst ht
    rfl

/-- C7 witness: the laws applied at concrete values (a NaN-free string
for reflexivity; a number/string pair for symmetry; booleans for the
`!=` law). -/
theorem c7_witness :
    areEqual (.string "holu") (.string "holu") = true ∧
    areEqual (.number (.finite 1)) (.string "1") =
      areEqual (.string "1") (.number (.finite 1)) ∧
    binaryOp ⟨.equalEqual, 2⟩ (.boolean true) .nil =
      .ok (.boolean (areEqual (.boolean true) .nil)) ∧
    binaryOp ⟨.bangEqual, 2⟩ (.boolean true) .nil =
      .ok (.boolean (!areEqual (.boolean true) .nil)) :=
  ⟨c7_equality_laws.1 (.string "holu") rfl,
   c7_equality_laws.2.1 (.number (.finite 1)) (.string "1"),
   c7_equality_laws.2.2.1 ⟨.equalEqual, 2⟩ (.boolean true) .nil rfl,
   c7_equality_laws.2.2.2 ⟨.bangEqual, 2⟩ (.boolean true) .nil rfl⟩

/-- C8 counterexample.  `InvalidExpression` renders as "Expression
cannot be executed. Maybe there is an issue with the parser." — it does
not begin with the `[line N]: ` prefix the claim requires of every
user-surfaceable variant (its first six characters are not
`"[line "`). -/
theorem c8_counterexample :
    RuntimeError.invalidExpression.message =
      "Expression cannot be executed. Maybe there is an issue with the parser." ∧
    (RuntimeError.invalidExpression.message.data.take 6 = "[line ".data) = False ∧
    RuntimeError.cannotWriteToStdout.message = "Cannot write to stdout" := by
  refine ⟨rfl, ?_, rfl⟩
  simp only [eq_iff_iff, iff_false]
  intro hcontra
  exact absurd hcontra (by decide)

/-- C8 (amended).  Every `RuntimeError` variant that carries a source
line renders as a single `"[line N]: <message>"` string.  The two
variants without a line — `InvalidExpression` (an internal parser-bug
signal) and `CannotWriteToStdout` — render without the prefix, and the
internal `Return` is never rendered. -/
theorem c8_line_prefixed_messages :
    (∀ (line : Nat) (got : String), ∃ r,
      (RuntimeError.notANumber line got).message =
        "[line " ++ ToString.toString line ++ "]: " ++ r) ∧
    (∀ (line : Nat) (op lt rt : String), ∃ r,
      (RuntimeError.wrongBinaryOperationType line op lt rt).message =
        "[line " ++ ToString.toString line ++ "]: " ++ r) ∧
    (∀ (line : Nat) (name : String), ∃ r,
      (RuntimeError.undefinedVariable line name).message =
        "[line " ++ ToString.toString line ++ "]: " ++ r) ∧
    (∀ (line : Nat), ∃ r,
      (RuntimeError.zeroDivision line).message =
        "[line " ++ ToString.toString line ++ "]: " ++ r) ∧
    (∀ (line : Nat) (got : String), ∃ r,
      (RuntimeError.notAFunction line got).message =
        "[line " ++ ToString.toString line ++ "]: " ++ r) ∧
    (∀ (line : Nat) (name : String) (expected got : Nat), ∃ r,
      (RuntimeError.wrongNumberOfArguments line name expected got).message =
        "[line " ++ ToString.toString line ++ "]: " ++ r) :=
  ⟨fun _ _ => ⟨_, rfl⟩,
   fun _ _ _ _ => ⟨_, rfl⟩,
   fun _ _ => ⟨_, rfl⟩,
   fun _ => ⟨_, rfl⟩,
   fun _ _ => ⟨_, rfl⟩,
   fun _ _ _ _ => ⟨_, rfl⟩⟩

/-- C9 counterexample.  Evaluating `1(x)` (callee is the number `1`,
argument is the undefined variable `x`): the claim says the call fails
with `NotAFunction` before the arguments are touched, but the code
evaluates the arguments first, so the result is the argument's own
`UndefinedVariable` error. -/
theorem c9_counterexample :
    (interpretCall 10 (.literalNumber (.finite 1)) [.variable "x" 9] 5 demoState).map
        Prod.fst =
      some (.error (.undefinedVariable 9 "x")) := rfl

/-- C9 (amended).  `interpret_call` evaluates the callee first, then
ALL argument expressions left-to-right (their side effects and errors
occur even when the callee is not callable, and an argument error
preempts `NotAFunction`); only after the arguments succeed is the
callee value tested, failing with `NotAFunction` at the call line when
it is not callable. -/
theorem c9_args_before_callable_check (fuel : Nat) (callee : Expr) (args : List Expr)
    (line : Nat) (st st1 : InterpState) (v : Value)
    (hc : interpretExpr fuel callee st = some (.ok v, st1))
    (hnc : ∀ c, ¬ v = .callable c) :
    interpretCall (fuel + 1) callee args line st =
      match evalArgs fuel args st1 with
      | none => none
      | some (.error e, st2) => some (.error e, st2)
      | some (.ok _, st2) => some (.error (.notAFunction line v.typeName), st2) := by
  unfold interpretCall
  simp only [hc]

/-- C9 witness: `1(nil)` — the argument list evaluates fine, after
which the number callee is rejected with `NotAFunction` at line 5. -/
theorem c9_witness :
    interpretCall 10 (.literalNumber (.finite 1)) [.literalNil] 5 demoState =
      some (.error (.notAFunction 5 "Number"), demoState) := by
  have h := c9_args_before_callable_check 9 (.literalNumber (.finite 1)) [.literalNil]
    5 demoState demoState (.number (.finite 1)) rfl (fun c hh => by cases hh)
  rw [h]
  rfl

/-- C10 counterexample.  The zero-divisor guard compares only the right
operand with `0.0` by IEEE equality, so a NaN dividend passes the guard
and the quotient IS computed and IS NaN: `NaN / 1.0` evaluates to
`Number(NaN)` — division can yield NaN, contradicting the claim's
"division never yields an IEEE-754 infinity or NaN". -/
theorem c10_counterexample :
    binaryOp ⟨.slash, 1⟩ (.number .nan) (.number (.finite 1)) =
      .ok (.number .nan) := rfl

/-- C10 (amended).  For `/` on two numbers: whenever the right operand
IEEE-equals `0.0` (literal zero, a computed zero, or `-0.0` alike),
evaluation fails with `ZeroDivision` at the operator's line and the
quotient is never produced; when the guard passes, the quotient is
computed and returned.  The original claim's consequence that division
never yields an IEEE-754 infinity or NaN is dropped: it is refuted by
the NaN counterexample (a NaN operand passes the guard, since
`NaN == 0.0` is false, and propagates to a NaN quotient), and the
exact-rational model cannot support any finiteness guarantee because
real `f64` division of finite operands may overflow to infinity, which
this model deliberately does not represent. -/
theorem c10_zero_division_guard (t : Token) (n1 n2 : Float64)
    (ht : t.kind = .slash) :
    (Float64.feq n2 Float64.zero = true →
      binaryOp t (.number n1) (.number n2) = .error (.zeroDivision t.line)) ∧
    (Float64.feq n2 Float64.zero = false →
      binaryOp t (.number n1) (.number n2) = .ok (.number (Float64.fdiv n1 n2))) := by
  rcases t with ⟨k, l⟩
  dsimp only at ht
  subst ht
  constructor
  · intro hz
    simp [binaryOp, hz]
  · intro hz
    simp [binaryOp, hz]

/-- C10 witness: `4 / 0` raises `ZeroDivision` at the operator's line 3
(also when the zero is the negation `-0.0`, which is the same model
value), while `4 / 2` passes the guard and returns the quotient. -/
theorem c10_witness :
    binaryOp ⟨.slash, 3⟩ (.number (.finite 4)) (.number (.finite 0)) =
      .error (.zeroDivision 3) ∧
    binaryOp ⟨.slash, 3⟩ (.number (.finite 4)) (.number (.finite 2)) =
      .ok (.number (Float64.fdiv (.finite 4) (.finite 2))) :=
  ⟨(c10_zero_division_guard ⟨.slash, 3⟩ (.finite 4) (.finite 0) rfl).1 (by decide),
   (c10_zero_division_guard ⟨.slash, 3⟩ (.finite 4) (.finite 2) rfl).2 (by decide)⟩
